import Mathlib

/-!
Shallow embedding of the dependency-manifest resolver of this repository
(`src/native/corehost/hostpolicy/deps_format.cpp` and
`src/native/corehost/json_parser.cpp`), together with theorems settling the
frozen claims about it.

JSON documents are modelled as an inductive tree; the simdjson element
accessor (`element[key]`, with `.error()` signalling absence or a type
mismatch) is modelled by `Option`-returning lookups, and a call of
`.value()` on an error-carrying result — which throws `simdjson_error` —
is modelled by `Except.error`.  Machine `size_t` arithmetic
(`std::string::npos + 1` wrapping to `0`) is modelled on `Nat` with an
explicit `% 2 ^ 64`.
-/

set_option autoImplicit false

namespace DepsFormat

/-- JSON document tree, the shape produced by the external simdjson parser.
Object members are kept in document order. -/
inductive Json where
  | null : Json
  | bool (b : Bool) : Json
  | num (n : Int) : Json
  | str (s : String) : Json
  | arr (elems : List Json) : Json
  | obj (members : List (String × Json)) : Json

/-- Model of `simdjson::dom::element::is_object()`. -/
def Json.isObject : Json → Bool
  | .obj _ => true
  | _ => false

/-- Model of the simdjson element accessor `element[key]` (and of
`at_pointer` with a one-segment pointer): `none` models an error result
(element is not an object, or the key is absent); object member lookup
returns the first member with the given key, in document order. -/
def Json.lookup? : Json → String → Option Json
  | .obj members, key => (members.find? (fun m => m.1 == key)).map (fun m => m.2)
  | _, _ => none

/-- Model of `simdjson::dom::element::get_string()` composed with a
success test: the string payload when the element is a string. -/
def Json.asString? : Json → Option String
  | .str s => some s
  | _ => none

/-- Model of `get_bool()`: the boolean payload when the element is a boolean. -/
def Json.asBool? : Json → Option Bool
  | .bool b => some b
  | _ => none

/-- The value of `std::string::npos` (`size_t(-1)`), used by
`deps_format.cpp` through `std::string::find`/`substr`. -/
def npos : Nat := 2 ^ 64 - 1

/-- Model of `std::string::find(c)`: index of the first occurrence of `c`,
or `npos` when absent. -/
def cpp_find (s : String) (c : Char) : Nat :=
  match s.data.findIdx? (fun ch => ch == c) with
  | some i => i
  | none => npos

/-- Model of `std::string::rfind(c)`: index of the last occurrence of `c`,
or `npos` when absent. -/
def cpp_rfind (s : String) (c : Char) : Nat :=
  match s.data.reverse.findIdx? (fun ch => ch == c) with
  | some i => s.data.length - 1 - i
  | none => npos

/-- Model of `std::string::substr(pos, count)`: `count` characters starting
at `pos`, clipped at the end of the string (`count = npos` takes the rest).
Callers in the embedded code only pass `pos ≤ length`, where C++ `substr`
is total. -/
def cpp_substr (s : String) (pos count : Nat) : String :=
  String.mk ((s.data.drop pos).take count)

/-- ASCII lower-casing of one character (the behavior of the host's
`to_lower`/`strcasecmp` helpers on the ASCII names they are applied to). -/
def ascii_to_lower (c : Char) : Char :=
  if 'A' ≤ c ∧ c ≤ 'Z' then Char.ofNat (c.toNat + 32) else c

/-- Model of `to_lower` (helper from `utils.cpp`, not under `src/`):
character-wise ASCII lower-casing. -/
def str_to_lower (s : String) : String :=
  String.mk (s.data.map ascii_to_lower)

/-- Model of `replace_char` (helper from `utils.cpp`, not under `src/`):
replace every occurrence of `c1` by `c2`. -/
def replace_char (s : String) (c1 c2 : Char) : String :=
  String.mk (s.data.map (fun ch => if ch == c1 then c2 else ch))

/-- Model of `utils::ends_with(value, suffix, match_case)` (helper from
`utils.cpp`, not under `src/`; modelled from its standard behavior:
suffix test, case-insensitive when `match_case` is false). -/
def utils_ends_with (value suffix : String) (match_case : Bool) : Bool :=
  let v := if match_case then value else str_to_lower value
  let sfx := if match_case then suffix else str_to_lower suffix
  sfx.data.isSuffixOf v.data

/-- Modelled from the spec: `strip_file_ext` (helper from `utils.cpp`, not
under `src/`) removes the extension — everything from the last `'.'` on —
and returns the path unchanged when it is empty or has no `'.'`. -/
def strip_file_ext (path : String) : String :=
  if path.isEmpty then path
  else
    let sep_pos := cpp_rfind path '.'
    if sep_pos == npos then path else cpp_substr path 0 sep_pos

/-- Model of `std::string::find_last_of` over the two directory-separator
characters: index of the last `'/'` or `'\'`, or `npos` when neither occurs. -/
def cpp_find_last_sep (s : String) : Nat :=
  match s.data.reverse.findIdx? (fun ch => ch == '/' || ch == '\\') with
  | some i => s.data.length - 1 - i
  | none => npos

/-- Modelled from the spec: `get_filename_without_ext` (helper from
`utils.cpp`, not under `src/`): the spec's "logical name (filename without
extension)" — the portion after the last directory separator, with the
portion from the last `'.'` on removed when that dot lies in the filename. -/
def get_filename_without_ext (file_path : String) : String :=
  if file_path.isEmpty then file_path
  else
    let name_pos := cpp_find_last_sep file_path
    let dot_pos := cpp_rfind file_path '.'
    let start_pos := if name_pos == npos then 0 else name_pos + 1
    let count := if dot_pos == npos || dot_pos < start_pos then npos else dot_pos - start_pos
    cpp_substr file_path start_pos count

/-- Modelled from the spec: `get_filename` (helper from `utils.cpp`, not
under `src/`): the portion of a path after the last directory separator. -/
def get_filename (path : String) : String :=
  if path.isEmpty then path
  else
    let name_pos := cpp_find_last_sep path
    if name_pos == npos then path else cpp_substr path (name_pos + 1) npos

/-- Four-part version number (`version_t` from `version.h`, not under
`src/`; only carried through, never inspected, by the embedded core). -/
structure version_t where
  major : Nat
  minor : Nat
  build : Nat
  revision : Nat
deriving DecidableEq, Repr

def version_t.zero : version_t := ⟨0, 0, 0, 0⟩

/-- Modelled from the spec: semantic-version string parsing is an external
collaborator, `parse(text) -> (major,minor,build,revision)`, best-effort
and non-fatal on failure (`version_t::parse`, not under `src/`). -/
def version_parse (s : String) : Option version_t :=
  match (s.splitOn ".").mapM String.toNat? with
  | some [a, b, c, d] => some ⟨a, b, c, d⟩
  | some [a, b, c] => some ⟨a, b, c, 0⟩
  | some [a, b] => some ⟨a, b, 0, 0⟩
  | _ => none

/-- Value type for a single asset (`deps_asset_t` from `deps_entry.h`):
logical name, declared relative path, and the two best-effort versions. -/
structure deps_asset_t where
  name : String
  relative_path : String
  assembly_version : version_t
  file_version : version_t
deriving DecidableEq, Repr

/-- The closed asset-category enumeration `deps_entry_t::asset_types`
(`runtime`, `resources`, `native`), in its fixed ordinal order. -/
inductive asset_types where
  | runtime
  | resources
  | native
deriving DecidableEq, Repr

/-- The category name table `deps_entry_t::s_known_asset_types`
(deps_format.cpp:16-18), index-aligned with `asset_types`. -/
def s_known_asset_types : List String := ["runtime", "resources", "native"]

def asset_types.all : List asset_types := [.runtime, .resources, .native]

/-- The category's entry in `s_known_asset_types`. -/
def asset_types.typeName : asset_types → String
  | .runtime => "runtime"
  | .resources => "resources"
  | .native => "native"

/-- A `std::array<_, deps_entry_t::asset_types::count>`: per-category
storage indexed by the category ordinal. -/
structure asset_array (α : Type) where
  runtime : α
  resources : α
  native : α
deriving DecidableEq, Repr

def asset_array.get {α : Type} (a : asset_array α) : asset_types → α
  | .runtime => a.runtime
  | .resources => a.resources
  | .native => a.native

def asset_array.map {α β : Type} (f : α → β) (a : asset_array α) : asset_array β :=
  ⟨f a.runtime, f a.resources, f a.native⟩

def asset_array.modify {α : Type} (t : asset_types) (f : α → α) (a : asset_array α) : asset_array α :=
  match t with
  | .runtime => { a with runtime := f a.runtime }
  | .resources => { a with resources := f a.resources }
  | .native => { a with native := f a.native }

def asset_array.const {α : Type} (x : α) : asset_array α := ⟨x, x, x⟩

abbrev vec_asset_t := List deps_asset_t

/-- An `unordered_map<pal::string_t, _>` modelled as an association list
with unique keys (first match wins, as in the hash map). -/
def assocHasKey {α : Type} (m : List (String × α)) (k : String) : Bool :=
  m.any (fun p => p.1 == k)

def assocLookup {α : Type} (m : List (String × α)) (k : String) : Option α :=
  (m.find? (fun p => p.1 == k)).map (fun p => p.2)

/-- `unordered_map` `operator[]` followed by a mutation of the slot:
find the slot (inserting `dflt` when absent) and apply `f` to it. -/
def assocUpdate {α : Type} (m : List (String × α)) (k : String) (dflt : α) (f : α → α) :
    List (String × α) :=
  match m with
  | [] => [(k, f dflt)]
  | p :: rest => if p.1 == k then (p.1, f p.2) :: rest else p :: assocUpdate rest k dflt f

/-- The `rid_assets` map of one `(library, category)` slot: RID string →
ordered asset list (`deps_json_t::rid_specific_assets_t`). -/
abbrev rid_map := List (String × vec_asset_t)

/-- `deps_json_t::rid_fallback_graph_t`: RID → ordered fallback RID list. -/
abbrev rid_fallback_graph_t := List (String × List String)

/-- Model of `json_parser_t::parse_raw_data` (json_parser.cpp:38-61).  The
argument is the outcome of the external simdjson parse (`none`: parse
error).  The `is_object` test of json_parser.cpp:54 is embedded exactly as
written in the source: the function returns `false` — parse failure — when
the document root IS an object, and `true` otherwise. -/
def parse_raw_data (parse_result : Option Json) : Bool :=
  match parse_result with
  | none => false
  | some doc => if doc.isObject then false else true

/-- The on-disk situation `deps_json_t::load` finds: the manifest file is
missing, or it exists and the external simdjson parse of its bytes yields
`none` (malformed JSON) or `some doc`. -/
inductive deps_file_state where
  | missing
  | on_disk (parse_result : Option Json)

/-- Outcome of the load prologue: the `m_file_exists` / `m_valid` flags and
the document handed on to extraction and reconciliation (`none` when the
load stops before processing, in which case no entries are produced). -/
structure deps_load_result where
  m_file_exists : Bool
  m_valid : Bool
  document : Option Json

/-- Model of the validity logic of `deps_json_t::load`
(deps_format.cpp:635-650): a missing file is valid and empty; a failed
`json_parser_t::parse_file` (whose result is `parse_raw_data`) leaves
`m_valid` at its initial `false` and returns; otherwise `m_valid` becomes
`true` and processing continues on the parsed document. -/
def deps_json_load (fs : deps_file_state) : deps_load_result :=
  match fs with
  | .missing => { m_file_exists := false, m_valid := true, document := none }
  | .on_disk pr =>
    if parse_raw_data pr then
      { m_file_exists := true, m_valid := true, document := pr }
    else
      { m_file_exists := true, m_valid := false, document := none }

/-- One iteration of the `runtimes` scan in `populate_rid_fallback_graph`
(deps_format.cpp:58-74): `auto& vec = rid_fallback_graph[key]` creates the
slot before the value is inspected; when the value is an array, each string
element is appended in order and non-string elements are skipped. -/
def rid_graph_add (g : rid_fallback_graph_t) (key : String) (value : Json) :
    rid_fallback_graph_t :=
  assocUpdate g key [] (fun vec =>
    match value with
    | .arr elems => vec ++ elems.filterMap Json.asString?
    | _ => vec)

/-- Model of `populate_rid_fallback_graph` (deps_format.cpp:44-92): no-op
when the root is not an object or `runtimes` is absent / not an object /
empty; otherwise folds `rid_graph_add` over the members in document order. -/
def populate_rid_fallback_graph (json : Json) (g : rid_fallback_graph_t) :
    rid_fallback_graph_t :=
  if !json.isObject then g
  else
    match json.lookup? "runtimes" with
    | some (.obj members) =>
      if members.isEmpty then g
      else members.foldl (fun g' m => rid_graph_add g' m.1 m.2) g
    | _ => g

/-- The library-key split of `reconcile_libraries_with_targets`
(deps_format.cpp:151-153): `pos = lib_name.find('/')`,
`library_name = substr(0, pos)`, `library_version = substr(pos + 1)` —
where, when `'/'` is absent, `pos = npos` and the `size_t` sum `pos + 1`
wraps to `0`. -/
def split_lib_key (lib_name : String) : String × String :=
  let pos := cpp_find lib_name '/'
  (cpp_substr lib_name 0 pos, cpp_substr lib_name ((pos + 1) % 2 ^ 64) npos)

/-- The host-identity collaborators consumed by the resolver, all external
to the core (pal / environment / compile-time platform macros):
`try_get_runtime_id_from_env` (`none` models "returns false"),
`pal::get_current_os_rid_platform()`, `pal::get_current_os_fallback_rid()`,
`get_current_arch_name()`, `HOST_RID_PLATFORM`, and the `#ifdef` ladder of
OS-family aliases appearing in `s_host_rids` (deps_format.cpp:213-237). -/
structure host_context where
  env_rid : Option String
  os_rid_platform : String
  os_fallback_rid : String
  arch : String
  host_rid_platform : String
  fallback_os_aliases : List String

/-- The `RID_CURRENT_ARCH_LIST(os)` macro (deps_format.cpp:209-211):
the architecture-qualified RID followed by the unqualified one. -/
def RID_CURRENT_ARCH_LIST (os arch : String) : List String :=
  [os ++ "-" ++ arch, os]

/-- The static host-RID priority list `s_host_rids` (deps_format.cpp:213-237),
parametrized over the compile-time platform values: the current platform's
pair, then each OS-family alias's pair in the fixed `#ifdef` precedence,
terminated by `"any"`. -/
def s_host_rids (ctx : host_context) : List String :=
  RID_CURRENT_ARCH_LIST ctx.host_rid_platform ctx.arch
    ++ ctx.fallback_os_aliases.flatMap (fun os => RID_CURRENT_ARCH_LIST os ctx.arch)
    ++ ["any"]

/-- Model of `get_current_machine_rid` (deps_format.cpp:244-272): start from
the environment override when `try_get_runtime_id_from_env` succeeds,
otherwise compose platform plus architecture; then, when the resulting RID
is empty or (with a non-null graph) absent from the fallback graph, replace
it by the OS-family fallback name plus architecture. -/
def get_current_machine_rid (ctx : host_context)
    (rid_fallback_graph : Option rid_fallback_graph_t) : String :=
  let current_rid :=
    match ctx.env_rid with
    | some r => r
    | none =>
      if ctx.os_rid_platform.isEmpty then ctx.os_rid_platform
      else ctx.os_rid_platform ++ "-" ++ ctx.arch
  if current_rid.isEmpty
      || (match rid_fallback_graph with
          | some g => !assocHasKey g current_rid
          | none => false) then
    ctx.os_fallback_rid ++ "-" ++ ctx.arch
  else
    current_rid

/-- Model of `try_get_matching_rid` (deps_format.cpp:291-320): an
environment-override RID with an exact bucket match wins; otherwise the
first member of `s_host_rids` present in the bucket map. -/
def try_get_matching_rid (ctx : host_context) (rid_assets : rid_map) : Option String :=
  match ctx.env_rid with
  | some env_rid =>
    if assocHasKey rid_assets env_rid then some env_rid
    else (s_host_rids ctx).find? (fun rid => assocHasKey rid_assets rid)
  | none => (s_host_rids ctx).find? (fun rid => assocHasKey rid_assets rid)

/-- Model of `try_get_matching_rid_with_fallback_graph`
(deps_format.cpp:322-351): exact host-RID match first; else, when the host
RID is absent from the graph, no match (a compatibility warning is traced);
else the first RID of the host RID's ordered fallback list that is present
in the bucket map. -/
def try_get_matching_rid_with_fallback_graph (rid_assets : rid_map)
    (host_rid : String) (rid_fallback_graph : rid_fallback_graph_t) : Option String :=
  if assocHasKey rid_assets host_rid then some host_rid
  else
    match assocLookup rid_fallback_graph host_rid with
    | none => none
    | some fallback_rids => fallback_rids.find? (fun rid => assocHasKey rid_assets rid)

/-- `deps_json_t::rid_resolution_options_t`: whether graph mode is in use,
and (then non-null) the shared fallback graph. -/
structure rid_resolution_options_t where
  use_fallback_graph : Bool
  rid_fallback_graph : rid_fallback_graph_t

/-- Per-library RID-bucketed storage `rid_specific_assets_t::libs`. -/
abbrev rid_specific_libs := List (String × asset_array rid_map)

/-- Per-library flat storage `deps_assets_t::libs`. -/
abbrev deps_assets_libs := List (String × asset_array vec_asset_t)

/-- The body of the per-`(library, category)` loop of
`perform_rid_fallback` (deps_format.cpp:371-401): an empty bucket map is
left alone; otherwise the matching RID is computed by the mode's matcher;
no match clears the map, and a match erases every entry except the matched
RID's. -/
def resolve_rid_assets (ctx : host_context) (opts : rid_resolution_options_t)
    (host_rid : String) (rid_assets : rid_map) : rid_map :=
  if rid_assets.isEmpty then rid_assets
  else
    match (if opts.use_fallback_graph
           then try_get_matching_rid_with_fallback_graph rid_assets host_rid
                  opts.rid_fallback_graph
           else try_get_matching_rid ctx rid_assets) with
    | none => []
    | some matched_rid => rid_assets.filter (fun p => p.1 == matched_rid)

/-- Model of `deps_json_t::perform_rid_fallback` (deps_format.cpp:354-403):
in graph mode the host RID is computed once by `get_current_machine_rid`;
then every library's three category slots are resolved independently. -/
def perform_rid_fallback (ctx : host_context) (opts : rid_resolution_options_t)
    (libs : rid_specific_libs) : rid_specific_libs :=
  let host_rid :=
    if opts.use_fallback_graph then get_current_machine_rid ctx (some opts.rid_fallback_graph)
    else ""
  libs.map (fun package =>
    (package.1, package.2.map (resolve_rid_assets ctx opts host_rid)))

/-- The `package_exists` lambda of `deps_json_t::load_framework_dependent`
(deps_format.cpp:560-562): the library is known when either the RID-specific
or the generic map contains it. -/
def fw_package_exists (rid_libs : rid_specific_libs) (gen_libs : deps_assets_libs)
    (package : String) : Bool :=
  (assocLookup rid_libs package).isSome || (assocLookup gen_libs package).isSome

/-- The `get_relpaths` lambda of `deps_json_t::load_framework_dependent`
(deps_format.cpp:564-587): when the package's RID bucket map for the
category is non-empty, its (single surviving) first bucket is used and the
`rid_specific` flag set, provided that bucket's list is non-empty;
otherwise the generic bucket is returned with the flag false, or the empty
list when the generic map lacks the package. -/
def fw_get_relpaths (rid_libs : rid_specific_libs) (gen_libs : deps_assets_libs)
    (package : String) (t : asset_types) : vec_asset_t × Bool :=
  let generic : vec_asset_t × Bool :=
    match assocLookup gen_libs package with
    | some arr => (arr.get t, false)
    | none => ([], false)
  match assocLookup rid_libs package with
  | some arr =>
    match arr.get t with
    | [] => generic
    | (_, assets_for_type) :: _ =>
      if !assets_for_type.isEmpty then (assets_for_type, true) else generic
  | none => generic

/-- Model of `get_optional_property` (deps_format.cpp:22-28): the string
payload when `properties[key]` and `get_string()` both succeed, else `""`. -/
def get_optional_property (properties : Json) (key : String) : String :=
  match properties.lookup? key >>= Json.asString? with
  | some s => s
  | none => ""

/-- Model of `get_optional_path` (deps_format.cpp:30-42): like
`get_optional_property`, with `'/'` replaced by the platform directory
separator `sep` when they differ. -/
def get_optional_path (sep : Char) (properties : Json) (key : String) : String :=
  let path := get_optional_property properties key
  if path.length > 0 && sep != '/' then replace_char path '/' sep
  else path

/-- Best-effort version read used by both extraction loops
(deps_format.cpp:448-460 and 524-536): a default-constructed version,
overwritten by `version_t::parse` when the optional property is non-empty
and parses. -/
def read_version (properties : Json) (key : String) : version_t :=
  let version_str := get_optional_property properties key
  if !version_str.isEmpty then (version_parse version_str).getD version_t.zero
  else version_t.zero

/-- One `runtimeTargets` file entry of `process_runtime_targets`
(deps_format.cpp:431-483): skipped unless the entry is an object with a
string `assetType` naming one of the three known categories
(case-insensitively, `strcasecmp`) and a string `rid`; otherwise the asset
— whose logical name is the filename without extension, with no further
stripping — is appended to the package's bucket for that RID and category. -/
def runtime_target_file_add (package_key file_key : String) (file_value : Json)
    (libs : rid_specific_libs) : rid_specific_libs :=
  match file_value with
  | .obj _ =>
    match file_value.lookup? "assetType" >>= Json.asString? with
    | none => libs
    | some type_str =>
      match asset_types.all.find? (fun t => str_to_lower type_str == str_to_lower t.typeName) with
      | none => libs
      | some t =>
        let assembly_version := read_version file_value "assemblyVersion"
        let file_version := read_version file_value "fileVersion"
        let asset : deps_asset_t :=
          ⟨get_filename_without_ext file_key, file_key, assembly_version, file_version⟩
        match file_value.lookup? "rid" >>= Json.asString? with
        | none => libs
        | some rid =>
          assocUpdate libs package_key (asset_array.const [])
            (fun arr => arr.modify t (fun m => assocUpdate m rid [] (fun v => v ++ [asset])))
  | _ => libs

/-- The extraction loop of `deps_json_t::process_runtime_targets`
(deps_format.cpp:409-484): no-op unless `targets[target_name]` is a
non-empty object; packages that are not objects or lack `runtimeTargets`
are skipped; iterating a `runtimeTargets` value that is not an object
throws (`get_object()` is read without an error check at
deps_format.cpp:430), modelled by `Except.error`. -/
def runtime_targets_extract (json : Json) (target_name : String) :
    Except String rid_specific_libs :=
  match json.lookup? "targets" with
  | some (.obj targets) =>
    match assocLookup targets target_name with
    | some (.obj target_packages) =>
      if target_packages.isEmpty then .ok []
      else
        target_packages.foldlM (fun libs package =>
          match package.2 with
          | .obj package_members =>
            match package.2.lookup? "runtimeTargets" with
            | none => .ok libs
            | some rt_value =>
              if package_members.isEmpty then .ok libs
              else
                match rt_value with
                | .obj runtime_targets =>
                  .ok (runtime_targets.foldl
                    (fun l file => runtime_target_file_add package.1 file.1 file.2 l) libs)
                | _ => .error "simdjson_error: runtimeTargets is not an object"
          | _ => .ok libs) []
    | _ => .ok []
  | _ => .ok []

/-- Model of `deps_json_t::process_runtime_targets` (deps_format.cpp:405-487):
the extraction loop followed by the `perform_rid_fallback` call on its
result. -/
def process_runtime_targets (ctx : host_context) (opts : rid_resolution_options_t)
    (json : Json) (target_name : String) : Except String rid_specific_libs :=
  (runtime_targets_extract json target_name).map (perform_rid_fallback ctx opts)

/-- Final output unit `deps_entry_t` (fields as populated at
deps_format.cpp:175-188). -/
structure deps_entry_t where
  library_name : String
  library_version : String
  library_type : String
  library_hash : String
  library_path : String
  library_hash_path : String
  runtime_store_manifest_list : String
  asset_type : asset_types
  is_serviceable : Bool
  is_rid_specific : Bool
  deps_file : String
  asset : deps_asset_t
deriving DecidableEq, Repr

/-- The asset-name normalization of `reconcile_libraries_with_targets`
(deps_format.cpp:169-173): a trailing `".ni"` (case-insensitive) is removed
by `strip_file_ext`; it is applied to every category's assets. -/
def ni_strip_asset_name (asset_name : String) : String :=
  if utils_ends_with asset_name ".ni" false then strip_file_ext asset_name
  else asset_name

/-- The per-library metadata read by reconciliation
(deps_format.cpp:143-153). -/
structure lib_metadata where
  library_name : String
  library_version : String
  library_type : String
  library_hash : String
  library_path : String
  library_hash_path : String
  runtime_store_manifest_list : String
  is_serviceable : Bool
deriving DecidableEq, Repr

/-- The per-asset entry construction of reconciliation
(deps_format.cpp:167-201), for one category's resolved asset list. -/
def mk_reconciled_entries (deps_file : String) (meta : lib_metadata)
    (t : asset_types) (rid_specific : Bool) (assets : vec_asset_t) : List deps_entry_t :=
  assets.map (fun asset =>
    { library_name := meta.library_name
      library_version := meta.library_version
      library_type := meta.library_type
      library_hash := meta.library_hash
      library_path := meta.library_path
      library_hash_path := meta.library_hash_path
      runtime_store_manifest_list := meta.runtime_store_manifest_list
      asset_type := t
      is_serviceable := meta.is_serviceable
      is_rid_specific := rid_specific
      deps_file := deps_file
      asset := { asset with name := ni_strip_asset_name asset.name } })

/-- The per-library body of `reconcile_libraries_with_targets`
(deps_format.cpp:143-202): optional properties default to `""`, but
`serviceable` and `type` are read through `.value()`, which throws —
`Except.error` — when the member is absent or of the wrong type; the
library key is split on its first `'/'`; each category's resolved assets
become entries in order. -/
def reconcile_one_library (sep : Char) (deps_file : String)
    (get_assets_fn : String → asset_types → vec_asset_t × Bool)
    (lib_name : String) (value : Json) :
    Except String (asset_array (List deps_entry_t)) :=
  let hash := get_optional_property value "sha512"
  match value.lookup? "serviceable" >>= Json.asBool? with
  | none => Except.error "simdjson_error thrown by serviceable get_bool value"
  | some serviceable =>
    let library_path := get_optional_path sep value "path"
    let library_hash_path := get_optional_path sep value "hashPath"
    let runtime_store_manifest_list := get_optional_path sep value "runtimeStoreManifestName"
    match value.lookup? "type" >>= Json.asString? with
    | none => Except.error "simdjson_error thrown by type get_string value"
    | some type_str =>
      let library_type := str_to_lower type_str
      let split := split_lib_key lib_name
      let meta : lib_metadata :=
        ⟨split.1, split.2, library_type, hash, library_path, library_hash_path,
         runtime_store_manifest_list, serviceable⟩
      let per := fun (t : asset_types) =>
        let res := get_assets_fn lib_name t
        mk_reconciled_entries deps_file meta t res.2 res.1
      Except.ok ⟨per .runtime, per .resources, per .native⟩

/-- Category-wise append of reconciled entries (the `m_deps_entries[i].push_back`
accumulation across libraries). -/
def deps_entries_append (a b : asset_array (List deps_entry_t)) :
    asset_array (List deps_entry_t) :=
  ⟨a.runtime ++ b.runtime, a.resources ++ b.resources, a.native ++ b.native⟩

/-- Model of `deps_json_t::reconcile_libraries_with_targets`
(deps_format.cpp:121-204): no-op when `libraries` is absent or not an
object; libraries failing `library_has_assets_fn` are skipped; the rest are
processed in document order, their entries appended per category. -/
def reconcile_libraries_with_targets (sep : Char) (m_deps_file : String) (json : Json)
    (library_has_assets_fn : String → Bool)
    (get_assets_fn : String → asset_types → vec_asset_t × Bool) :
    Except String (asset_array (List deps_entry_t)) :=
  let deps_file := get_filename m_deps_file
  match json.lookup? "libraries" with
  | some (.obj libraries) =>
    libraries.foldlM (fun entries library =>
      if !library_has_assets_fn library.1 then Except.ok entries
      else
        (reconcile_one_library sep deps_file get_assets_fn library.1 library.2).map
          (fun one => deps_entries_append entries one)) (asset_array.const [])
  | _ => Except.ok (asset_array.const [])

/-- Fixture asset used by concrete examples and witnesses. -/
def asset_a : deps_asset_t := ⟨"A", "lib/A.dll", version_t.zero, version_t.zero⟩

/-- Second fixture asset. -/
def asset_b : deps_asset_t := ⟨"B", "lib/B.dll", version_t.zero, version_t.zero⟩

/-- Fixture manifest whose single `runtimeTargets` asset carries the
native-image marker in its filename. -/
def ni_example_doc : Json :=
  Json.obj [("targets", Json.obj [("T", Json.obj [("P/1", Json.obj [("runtimeTargets",
    Json.obj [("lib/My.ni.dll", Json.obj [("assetType", Json.str "runtime"),
                                          ("rid", Json.str "win")])])])])])]

theorem assocUpdate_of_not_hasKey {α : Type} (m : List (String × α)) (k : String)
    (d : α) (f : α → α) (h : assocHasKey m k = false) :
    assocUpdate m k d f = m ++ [(k, f d)] := by
  induction m with
  | nil => rfl
  | cons p rest ih =>
    simp only [assocHasKey, List.any_cons, Bool.or_eq_false_iff] at h
    simp only [assocUpdate, h.1, Bool.false_eq_true, if_false, List.cons_append,
      List.cons.injEq, true_and]
    exact ih (by simpa [assocHasKey] using h.2)

theorem assocLookup_map_value {α β : Type} (f : α → β) (m : List (String × α)) (k : String) :
    assocLookup (m.map (fun p => (p.1, f p.2))) k = (assocLookup m k).map f := by
  induction m with
  | nil => rfl
  | cons p rest ih =>
    by_cases h : (p.1 == k) = true
    · simp [assocLookup, List.find?_cons_of_pos, h]
    · simp only [assocLookup, List.map_cons] at ih ⊢
      rw [List.find?_cons_of_neg _ (by simpa using h), List.find?_cons_of_neg _ (by simpa using h)]
      exact ih

theorem asset_array_get_modify {α : Type} (a : asset_array α) (t t' : asset_types) (f : α → α) :
    (a.modify t f).get t' = if t' = t then f (a.get t) else a.get t' := by
  cases t <;> cases t' <;> simp [asset_array.modify, asset_array.get]

theorem foldlM_except_ok_preserve {α σ : Type} (P : σ → Prop)
    (step : σ → α → Except String σ) (l : List α) :
    ∀ (init : σ), P init →
    (∀ s a s', a ∈ l → P s → step s a = Except.ok s' → P s') →
    ∀ out, l.foldlM step init = Except.ok out → P out := by
  induction l with
  | nil =>
    intro init hinit _ out hout
    have h : Except.ok init = Except.ok out := hout
    injection h with h
    exact h ▸ hinit
  | cons a l ih =>
    intro init hinit hstep out hout
    rw [List.foldlM_cons] at hout
    cases hs : step init a with
    | error e =>
      rw [hs] at hout
      exact Except.noConfusion (show (Except.error e : Except String σ) = Except.ok out from hout)
    | ok s =>
      rw [hs] at hout
      exact ih s (hstep init a s (by simp) hinit hs)
        (fun s' b s'' hb => hstep s' b s'' (by simp [hb])) out hout

theorem foldlM_except_ok_total {α σ : Type}
    (step : σ → α → Except String σ) (l : List α) :
    ∀ (init : σ), (∀ s a, a ∈ l → ∃ s', step s a = Except.ok s') →
    ∃ out, l.foldlM step init = Except.ok out := by
  induction l with
  | nil => intro init _; exact ⟨init, rfl⟩
  | cons a l ih =>
    intro init hstep
    obtain ⟨s, hs⟩ := hstep init a (by simp)
    obtain ⟨out, hout⟩ := ih s (fun s' b hb => hstep s' b (by simp [hb]))
    exact ⟨out, by rw [List.foldlM_cons, hs]; exact hout⟩

/-- Claim C1 (code bug): the claim says a missing manifest loads valid and
empty, a parse failure loads invalid, and a parsed document whose root is
not a JSON object loads invalid.  The first two hold, but the root-shape
check is inverted in the source (json_parser.cpp:54 tests
`if (m_document.is_object())` and fails): a document whose root IS a JSON
object — e.g. the empty object — is rejected, `m_valid = false` and nothing
processed, while a non-object root is accepted as a valid load; this
contradicts the claim and the code's own error message
("Expected a JSON object"). -/
theorem load_marks_object_root_invalid :
    (deps_json_load .missing).m_valid = true
    ∧ (deps_json_load .missing).document = none
    ∧ (deps_json_load (.on_disk none)).m_valid = false
    ∧ (deps_json_load (.on_disk none)).document = none
    ∧ (deps_json_load (.on_disk (some (Json.obj [])))).m_valid = false
    ∧ (deps_json_load (.on_disk (some (Json.obj [])))).document = none
    ∧ (deps_json_load (.on_disk (some (Json.str "notAnObject")))).m_valid = true :=
  ⟨rfl, rfl, rfl, rfl, rfl, rfl, rfl⟩

/-- Claim C9 counterexample: a `runtimes` key whose value is malformed (not
an array) is NOT skipped — the map slot is created before the value is
inspected, so the key becomes a graph entry with an empty fallback list. -/
theorem malformed_runtimes_value_creates_entry :
    populate_rid_fallback_graph
        (Json.obj [("runtimes", Json.obj [("A", Json.str "notAnArray")])]) []
      = [("A", [])]
    ∧ assocLookup (populate_rid_fallback_graph
        (Json.obj [("runtimes", Json.obj [("A", Json.str "notAnArray")])]) []) "A" ≠ none :=
  ⟨rfl, by decide⟩

theorem rid_graph_add_fresh (g : rid_fallback_graph_t) (k : String) (v : Json)
    (h : assocHasKey g k = false) :
    rid_graph_add g k v
      = g ++ [(k, match v with
                  | Json.arr es => es.filterMap Json.asString?
                  | _ => [])] := by
  unfold rid_graph_add
  rw [assocUpdate_of_not_hasKey _ _ _ _ h]
  cases v <;> rfl

theorem rid_graph_fold_fresh (members : List (String × Json)) :
    ∀ (g : rid_fallback_graph_t),
    (∀ k, k ∈ members.map Prod.fst → assocHasKey g k = false) →
    (members.map Prod.fst).Nodup →
    members.foldl (fun g' m => rid_graph_add g' m.1 m.2) g
      = g ++ members.map (fun m => (m.1, match m.2 with
          | Json.arr es => es.filterMap Json.asString?
          | _ => [])) := by
  induction members with
  | nil => intro g _ _; simp
  | cons m rest ih =>
    intro g hfresh hnodup
    have h1 : assocHasKey g m.1 = false := hfresh m.1 (by simp)
    rw [List.foldl_cons, rid_graph_add_fresh g m.1 m.2 h1, ih]
    · simp
    · intro k hk
      simp only [assocHasKey, List.any_append, Bool.or_eq_false_iff]
      refine ⟨hfresh k (by simp [hk]), ?_⟩
      have hne : m.1 ≠ k := by
        intro hEq
        exact (List.nodup_cons.mp (by simpa using hnodup)).1 (hEq ▸ hk)
      simp [hne]
    · exact (List.nodup_cons.mp (by simpa using hnodup)).2

/-- Claim C9 (corrected): building the graph from `runtimes` — absent / not
an object leaves the graph unchanged; otherwise every key of the object
becomes a graph entry, mapping to the ordered string elements of its value
when that value is an array (non-string elements skipped without failing),
and to the EMPTY list when the value is malformed (not an array) — such
keys are not skipped, because the map slot is created before the value is
inspected (deps_format.cpp:60). -/
theorem rid_fallback_graph_construction
    (members : List (String × Json)) (hnodup : (members.map Prod.fst).Nodup) :
    (∀ (doc : Json) (g : rid_fallback_graph_t), doc.isObject = false →
        populate_rid_fallback_graph doc g = g)
    ∧ (∀ (ms : List (String × Json)) (g : rid_fallback_graph_t),
        (Json.obj ms).lookup? "runtimes" = none →
        populate_rid_fallback_graph (Json.obj ms) g = g)
    ∧ (∀ (ms : List (String × Json)) (g : rid_fallback_graph_t) (v : Json),
        (Json.obj ms).lookup? "runtimes" = some v → v.isObject = false →
        populate_rid_fallback_graph (Json.obj ms) g = g)
    ∧ populate_rid_fallback_graph (Json.obj [("runtimes", Json.obj members)]) []
        = members.map (fun m => (m.1, match m.2 with
            | Json.arr es => es.filterMap Json.asString?
            | _ => [])) := by
  refine ⟨?_, ?_, ?_, ?_⟩
  · intro doc g hdoc
    simp [populate_rid_fallback_graph, hdoc]
  · intro ms g hms
    simp [populate_rid_fallback_graph, hms]
  · intro ms g v hms hv
    simp only [populate_rid_fallback_graph, Json.isObject, Bool.not_true, Bool.false_eq_true,
      if_false, hms]
    cases v <;> simp_all [Json.isObject]
  · cases members with
    | nil => rfl
    | cons m rest =>
      have hstep : populate_rid_fallback_graph (Json.obj [("runtimes", Json.obj (m :: rest))]) []
          = (m :: rest).foldl (fun g' x => rid_graph_add g' x.1 x.2) [] := rfl
      rw [hstep, rid_graph_fold_fresh (m :: rest) [] (fun k _ => rfl) hnodup]
      simp

/-- Witness for `rid_fallback_graph_construction` at a concrete `runtimes`
object: a well-formed array keeps its strings in order and skips the
non-string element. -/
theorem rid_fallback_graph_construction_witness :
    populate_rid_fallback_graph
        (Json.obj [("runtimes",
          Json.obj [("linux-x64", Json.arr [Json.str "linux", Json.num 1, Json.str "any"])])]) []
      = [("linux-x64", ["linux", "any"])] := by
  have h := (rid_fallback_graph_construction
    [("linux-x64", Json.arr [Json.str "linux", Json.num 1, Json.str "any"])] (by simp)).2.2.2
  exact h.trans rfl

/-- Claim C10 (confirmed): a library key without a `'/'` separator splits —
through `find` returning `npos` and the `size_t` wraparound of `npos + 1`
to `0` — into a name AND a version that are both the whole key, and every
entry reconciliation produces for such a key carries the whole key in both
fields. -/
theorem library_key_without_separator (lib_name : String)
    (hlen : lib_name.data.length < 2 ^ 64) (hsep : '/' ∉ lib_name.data) :
    split_lib_key lib_name = (lib_name, lib_name)
    ∧ (∀ (sep : Char) (df : String) (get : String → asset_types → vec_asset_t × Bool)
        (value : Json) (out : asset_array (List deps_entry_t)) (t : asset_types)
        (e : deps_entry_t),
        reconcile_one_library sep df get lib_name value = Except.ok out →
        e ∈ out.get t →
        e.library_name = lib_name ∧ e.library_version = lib_name) := by
  have hfind : cpp_find lib_name '/' = npos := by
    unfold cpp_find
    have hidx : lib_name.data.findIdx? (fun ch => ch == '/') = none := by
      rw [List.findIdx?_eq_none_iff]
      intro x hx
      simp only [beq_eq_false_iff_ne]
      exact fun hEq => hsep (hEq ▸ hx)
    rw [hidx]
  have hle : lib_name.data.length ≤ npos := by
    have h64 : (2 : Nat) ^ 64 = 18446744073709551616 := by norm_num
    unfold npos
    omega
  have hmod : (npos + 1) % 2 ^ 64 = 0 := by norm_num [npos]
  have hsplit : split_lib_key lib_name = (lib_name, lib_name) := by
    unfold split_lib_key
    rw [hfind]
    show (cpp_substr lib_name 0 npos, cpp_substr lib_name ((npos + 1) % 2 ^ 64) npos)
      = (lib_name, lib_name)
    rw [hmod]
    unfold cpp_substr
    simp only [List.drop_zero, List.take_of_length_le hle]
  refine ⟨hsplit, ?_⟩
  intro sep df get value out t e hok he
  unfold reconcile_one_library at hok
  cases h1 : value.lookup? "serviceable" >>= Json.asBool? with
  | none =>
    rw [h1] at hok
    exact Except.noConfusion hok
  | some serviceable =>
    rw [h1] at hok
    cases h2 : value.lookup? "type" >>= Json.asString? with
    | none =>
      rw [h2] at hok
      exact Except.noConfusion hok
    | some type_str =>
      rw [h2] at hok
      injection hok with hok
      subst hok
      cases t <;>
        · simp only [asset_array.get, mk_reconciled_entries, List.mem_map] at he
          obtain ⟨a, _, ha⟩ := he
          rw [← ha]
          simp [hsplit]

/-- Witness for `library_key_without_separator` at the concrete key
"nodeps". -/
theorem library_key_without_separator_witness :
    split_lib_key "nodeps" = ("nodeps", "nodeps") :=
  (library_key_without_separator "nodeps" (by decide) (by decide)).1

theorem append_sep_isEmpty_false (a b : String) : (a ++ "-" ++ b).isEmpty = false := by
  rw [Bool.eq_false_iff]
  intro h
  have h' := (String.isEmpty_iff _).mp h
  have hlen := congrArg String.length h'
  have hone : ("-" : String).length = 1 := rfl
  have hzero : ("" : String).length = 0 := rfl
  simp only [String.length_append, hone, hzero] at hlen
  omega

/-- Claim C3 counterexample: an explicit environment override RID that is
present (and well-formed) but absent from the fallback graph is NOT used as
the host RID outright — `get_current_machine_rid` replaces it by the
baseline OS-family RID plus architecture. -/
theorem machine_rid_override_not_outright :
    get_current_machine_rid
        ⟨some "custom-rid", "fedora", "linux", "x64", "win", []⟩
        (some [("win-x64", ["win", "any"])])
      = "linux-x64"
    ∧ ("linux-x64" : String) ≠ "custom-rid" :=
  ⟨by decide, by decide⟩

/-- Claim C3 (corrected): in graph mode an explicit environment override is
taken as the INITIAL host RID (composition from OS platform plus
architecture happens only when no override is present), but the baseline
replacement applies to the initial host RID whatever its origin: an initial
RID that is empty or absent from the fallback graph — an environment
override included — is replaced by the OS family's fallback name plus
architecture. -/
theorem machine_rid_two_stage_fallback (ctx : host_context) (g : rid_fallback_graph_t) :
    (∀ r, ctx.env_rid = some r → assocHasKey g r = true → r.isEmpty = false →
        get_current_machine_rid ctx (some g) = r)
    ∧ (∀ r, ctx.env_rid = some r → assocHasKey g r = false →
        get_current_machine_rid ctx (some g) = ctx.os_fallback_rid ++ "-" ++ ctx.arch)
    ∧ (ctx.env_rid = none → ctx.os_rid_platform.isEmpty = false →
        assocHasKey g (ctx.os_rid_platform ++ "-" ++ ctx.arch) = true →
        get_current_machine_rid ctx (some g) = ctx.os_rid_platform ++ "-" ++ ctx.arch)
    ∧ (ctx.env_rid = none → ctx.os_rid_platform.isEmpty = false →
        assocHasKey g (ctx.os_rid_platform ++ "-" ++ ctx.arch) = false →
        get_current_machine_rid ctx (some g) = ctx.os_fallback_rid ++ "-" ++ ctx.arch)
    ∧ (ctx.env_rid = none → ctx.os_rid_platform.isEmpty = true →
        get_current_machine_rid ctx (some g) = ctx.os_fallback_rid ++ "-" ++ ctx.arch) := by
  refine ⟨?_, ?_, ?_, ?_, ?_⟩
  · intro r hr hkey hne
    simp [get_current_machine_rid, hr, hkey, hne]
  · intro r hr hkey
    by_cases hne : r.isEmpty = true
    · simp [get_current_machine_rid, hr, hne]
    · simp only [Bool.not_eq_true] at hne
      simp [get_current_machine_rid, hr, hkey, hne]
  · intro hr hplat hkey
    have hne := append_sep_isEmpty_false ctx.os_rid_platform ctx.arch
    simp [get_current_machine_rid, hr, hplat, hkey, hne]
  · intro hr hplat hkey
    simp [get_current_machine_rid, hr, hplat, hkey]
  · intro hr hplat
    simp [get_current_machine_rid, hr, hplat]

/-- Witness for `machine_rid_two_stage_fallback`: the override-replacement
conjunct at a concrete context and graph. -/
theorem machine_rid_two_stage_fallback_witness :
    get_current_machine_rid ⟨some "custom-rid", "fedora", "linux", "x64", "win", []⟩
        (some [("win-x64", ["win", "any"])])
      = "linux-x64" := by
  have h := (machine_rid_two_stage_fallback
      ⟨some "custom-rid", "fedora", "linux", "x64", "win", []⟩
      [("win-x64", ["win", "any"])]).2.1 "custom-rid" rfl (by decide)
  exact h.trans (by decide)

/-- Claim C2 (confirmed): graph-mode selection for a non-empty bucket map —
an exact host-RID match wins (regardless of the graph); a host RID absent
from the fallback graph clears the bucket map (after a compatibility
warning); otherwise the first RID of the graph's ordered fallback list that
is present in the bucket map is selected and every other bucket discarded,
and when none is present the bucket map is cleared. -/
theorem graph_mode_rid_selection (ctx : host_context) (g : rid_fallback_graph_t)
    (host : String) (b : rid_map) (hb : b ≠ []) :
    (assocHasKey b host = true →
        resolve_rid_assets ctx ⟨true, g⟩ host b = b.filter (fun p => p.1 == host))
    ∧ (assocHasKey b host = false → assocLookup g host = none →
        resolve_rid_assets ctx ⟨true, g⟩ host b = [])
    ∧ (∀ fbs, assocHasKey b host = false → assocLookup g host = some fbs →
        ((∀ r ∈ fbs, assocHasKey b r = false) →
            resolve_rid_assets ctx ⟨true, g⟩ host b = [])
        ∧ (∀ r, fbs.find? (fun rid => assocHasKey b rid) = some r →
            resolve_rid_assets ctx ⟨true, g⟩ host b = b.filter (fun p => p.1 == r))) := by
  have hbe : b.isEmpty = false := List.isEmpty_eq_false.mpr hb
  refine ⟨?_, ?_, ?_⟩
  · intro h
    simp [resolve_rid_assets, try_get_matching_rid_with_fallback_graph, hbe, h]
  · intro h1 h2
    simp [resolve_rid_assets, try_get_matching_rid_with_fallback_graph, hbe, h1, h2]
  · intro fbs h1 h2
    constructor
    · intro hall
      have hf : fbs.find? (fun rid => assocHasKey b rid) = none :=
        List.find?_eq_none.mpr (fun x hx => by simp [hall x hx])
      simp [resolve_rid_assets, try_get_matching_rid_with_fallback_graph, hbe, h1, h2, hf]
    · intro r hr
      simp [resolve_rid_assets, try_get_matching_rid_with_fallback_graph, hbe, h1, h2, hr]

/-- Witness for `graph_mode_rid_selection`: the claim's fallback-precedence
example — graph `win-x64 → [win, any]`, assets only under `win`, host RID
`win-x64` selects the `win` bucket. -/
theorem graph_mode_rid_selection_witness :
    resolve_rid_assets ⟨none, "", "", "", "", []⟩
        ⟨true, [("win-x64", ["win", "any"]), ("win", ["any"]), ("any", [])]⟩
        "win-x64" [("win", [asset_a])]
      = [("win", [asset_a])] := by
  have h := ((graph_mode_rid_selection ⟨none, "", "", "", "", []⟩
      [("win-x64", ["win", "any"]), ("win", ["any"]), ("any", [])]
      "win-x64" [("win", [asset_a])] (by decide)).2.2 ["win", "any"]
      (by decide) (by decide)).2 "win" (by decide)
  exact h.trans (by decide)

/-- Claim C6 (confirmed): static-list selection for a non-empty bucket map —
an environment override RID that exactly matches a bucket key is selected
first, regardless of the static priority list; otherwise the first member
of `s_host_rids` (architecture-qualified platform RID, unqualified platform
RID, the family aliases in their fixed precedence, ending with "any")
present in the bucket map is selected; no match clears the map.  The final
conjunct is the claim's example: override "custom-rid" wins over "win-x64"
even though the latter heads the static list. -/
theorem static_list_rid_selection (ctx : host_context) (g : rid_fallback_graph_t)
    (host : String) (b : rid_map) (hb : b ≠ []) :
    (∀ e, ctx.env_rid = some e → assocHasKey b e = true →
        resolve_rid_assets ctx ⟨false, g⟩ host b = b.filter (fun p => p.1 == e))
    ∧ ((ctx.env_rid = none ∨ ∃ e, ctx.env_rid = some e ∧ assocHasKey b e = false) →
        (∀ r, (s_host_rids ctx).find? (fun rid => assocHasKey b rid) = some r →
            resolve_rid_assets ctx ⟨false, g⟩ host b = b.filter (fun p => p.1 == r))
        ∧ ((s_host_rids ctx).find? (fun rid => assocHasKey b rid) = none →
            resolve_rid_assets ctx ⟨false, g⟩ host b = []))
    ∧ resolve_rid_assets ⟨some "custom-rid", "", "", "x64", "win", []⟩ ⟨false, g⟩ host
        [("custom-rid", [asset_a]), ("win-x64", [asset_b])]
      = [("custom-rid", [asset_a])] := by
  have hbe : b.isEmpty = false := List.isEmpty_eq_false.mpr hb
  refine ⟨?_, ?_, ?_⟩
  · intro e he hkey
    simp [resolve_rid_assets, try_get_matching_rid, hbe, he, hkey]
  · intro hdisj
    have hmatch : try_get_matching_rid ctx b
        = (s_host_rids ctx).find? (fun rid => assocHasKey b rid) := by
      rcases hdisj with hnone | ⟨e, he, hkey⟩
      · simp [try_get_matching_rid, hnone]
      · simp [try_get_matching_rid, he, hkey]
    constructor
    · intro r hr
      simp [resolve_rid_assets, hbe, hmatch, hr]
    · intro hnone
      simp [resolve_rid_assets, hbe, hmatch, hnone]
  · rfl

/-- Witness for `static_list_rid_selection`: the environment-override
conjunct at the claim's concrete bucket map. -/
theorem static_list_rid_selection_witness :
    resolve_rid_assets ⟨some "custom-rid", "", "", "x64", "win", []⟩ ⟨false, []⟩ ""
        [("custom-rid", [asset_a]), ("win-x64", [asset_b])]
      = [("custom-rid", [asset_a])] := by
  have h := (static_list_rid_selection ⟨some "custom-rid", "", "", "x64", "win", []⟩ [] ""
      [("custom-rid", [asset_a]), ("win-x64", [asset_b])] (by decide)).1
      "custom-rid" rfl (by decide)
  exact h.trans (by decide)

/-- Claim C5 (confirmed): RID-resolution failure is isolated — the result
`perform_rid_fallback` assigns to each library is exactly the per-category
resolution of that library's own bucket maps, pointwise, so clearing one
(library, category) pair leaves every other category of that library and
every other library exactly as they would have been.  The closed conjunct
is the spec's sibling-category example: runtime assets only under
`osx-x64` are cleared for host `linux-x64` (absent from the graph), while
the native category of the same library, with an exact `linux-x64` bucket,
still resolves. -/
theorem rid_fallback_isolation (ctx : host_context) (opts : rid_resolution_options_t) :
    (∀ (libs : rid_specific_libs) (lib : String),
        assocLookup (perform_rid_fallback ctx opts libs) lib
          = (assocLookup libs lib).map
              (asset_array.map (resolve_rid_assets ctx opts
                (if opts.use_fallback_graph
                 then get_current_machine_rid ctx (some opts.rid_fallback_graph)
                 else ""))))
    ∧ perform_rid_fallback ⟨none, "fedora", "linux", "x64", "", []⟩
        ⟨true, [("osx-x64", ["osx", "any"])]⟩
        [("L/1", ⟨[("osx-x64", [asset_a])], [], [("linux-x64", [asset_b])]⟩)]
      = [("L/1", ⟨[], [], [("linux-x64", [asset_b])]⟩)] := by
  constructor
  · intro libs lib
    exact assocLookup_map_value _ libs lib
  · decide

theorem assocHasKey_eq_isSome {α : Type} (m : List (String × α)) (k : String) :
    assocHasKey m k = (assocLookup m k).isSome := by
  induction m with
  | nil => rfl
  | cons p rest ih =>
    by_cases h : (p.1 == k) = true
    · simp [assocHasKey, assocLookup, List.any_cons, List.find?_cons_of_pos, h]
    · simp only [assocHasKey, List.any_cons, assocLookup]
      rw [List.find?_cons_of_neg _ (by simpa using h)]
      simp only [Bool.not_eq_true] at h
      simp only [h, Bool.false_or]
      exact ih

/-- Claim C4 (confirmed): framework-dependent precedence — a non-empty
RID-specific bucket (after resolution) is used with the rid-specific flag
set; an empty RID-specific bucket map (fallback failure included) or an
empty surviving bucket falls back to the generic bucket with the flag
false, or to the empty list when the generic map lacks the library; and a
library is considered to exist iff either the RID-specific or the generic
map contains it. -/
theorem framework_dependent_asset_precedence
    (rid_libs : rid_specific_libs) (gen_libs : deps_assets_libs)
    (package : String) (t : asset_types) :
    (∀ arr rid assets rest, assocLookup rid_libs package = some arr →
        asset_array.get arr t = (rid, assets) :: rest → assets ≠ [] →
        fw_get_relpaths rid_libs gen_libs package t = (assets, true))
    ∧ (∀ arr garr, assocLookup rid_libs package = some arr → asset_array.get arr t = [] →
        assocLookup gen_libs package = some garr →
        fw_get_relpaths rid_libs gen_libs package t = (asset_array.get garr t, false))
    ∧ (∀ arr rid rest garr, assocLookup rid_libs package = some arr →
        asset_array.get arr t = (rid, []) :: rest →
        assocLookup gen_libs package = some garr →
        fw_get_relpaths rid_libs gen_libs package t = (asset_array.get garr t, false))
    ∧ (∀ arr, assocLookup rid_libs package = some arr → asset_array.get arr t = [] →
        assocLookup gen_libs package = none →
        fw_get_relpaths rid_libs gen_libs package t = ([], false))
    ∧ (∀ garr, assocLookup rid_libs package = none →
        assocLookup gen_libs package = some garr →
        fw_get_relpaths rid_libs gen_libs package t = (asset_array.get garr t, false))
    ∧ (assocLookup rid_libs package = none → assocLookup gen_libs package = none →
        fw_get_relpaths rid_libs gen_libs package t = ([], false))
    ∧ (fw_package_exists rid_libs gen_libs package = true ↔
        (assocHasKey rid_libs package = true ∨ assocHasKey gen_libs package = true)) := by
  refine ⟨?_, ?_, ?_, ?_, ?_, ?_, ?_⟩
  · intro arr rid assets rest h1 h2 h3
    have h3' : assets.isEmpty = false := List.isEmpty_eq_false.mpr h3
    simp [fw_get_relpaths, h1, h2, h3']
  · intro arr garr h1 h2 h3
    simp [fw_get_relpaths, h1, h2, h3]
  · intro arr rid rest garr h1 h2 h3
    simp [fw_get_relpaths, h1, h2, h3]
  · intro arr h1 h2 h3
    simp [fw_get_relpaths, h1, h2, h3]
  · intro garr h1 h2
    simp [fw_get_relpaths, h1, h2]
  · intro h1 h2
    simp [fw_get_relpaths, h1, h2]
  · simp [fw_package_exists, assocHasKey_eq_isSome]

/-- Witness for `framework_dependent_asset_precedence`: a package with a
non-empty resolved RID bucket and a generic bucket uses the RID-specific
assets with the flag set. -/
theorem framework_dependent_asset_precedence_witness :
    fw_get_relpaths [("P/1", ⟨[("win", [asset_a])], [], []⟩)]
        [("P/1", ⟨[asset_b], [], []⟩)] "P/1" .runtime
      = ([asset_a], true) :=
  (framework_dependent_asset_precedence
      [("P/1", ⟨[("win", [asset_a])], [], []⟩)] [("P/1", ⟨[asset_b], [], []⟩)]
      "P/1" .runtime).1 ⟨[("win", [asset_a])], [], []⟩ "win" [asset_a] []
      (by decide) (by decide) (by decide)

/-- Claim C8 counterexample: a library that has assets but lacks the
`serviceable` boolean makes reconciliation fail with a thrown
`simdjson_error` (`.value()` on an error result) instead of absorbing a
default. -/
theorem reconcile_missing_serviceable_errors :
    (reconcile_libraries_with_targets '/' "a.deps.json"
        (Json.obj [("libraries",
          Json.obj [("A/1", Json.obj [("type", Json.str "package")])])])
        (fun _ => true) (fun _ _ => ([asset_a], false))).isOk = false := by
  decide

theorem reconcile_one_library_ok (sep : Char) (df : String)
    (get : String → asset_types → vec_asset_t × Bool) (lib_name : String) (value : Json)
    (hser : ∃ bv, value.lookup? "serviceable" = some (Json.bool bv))
    (htyp : ∃ ts, value.lookup? "type" = some (Json.str ts)) :
    ∃ out, reconcile_one_library sep df get lib_name value = Except.ok out := by
  obtain ⟨bv, hser⟩ := hser
  obtain ⟨ts, htyp⟩ := htyp
  have hs2 : value.lookup? "serviceable" >>= Json.asBool? = some bv := by
    rw [hser]; rfl
  have ht2 : value.lookup? "type" >>= Json.asString? = some ts := by
    rw [htyp]; rfl
  simp only [reconcile_one_library, hs2, ht2]
  exact ⟨_, rfl⟩

/-- Claim C8 (corrected): structural problems are absorbed — an absent or
non-object `libraries` section yields the empty result, and reconciliation
completes for every manifest in which each library that has assets carries
a boolean `serviceable` and a string `type`.  But those two fields are read
through `.value()` (deps_format.cpp:144,149), so a library WITH assets that
lacks either does make an exception escape reconciliation instead of
yielding the absorbed-default behavior. -/
theorem reconcile_ok_with_wellformed_metadata (sep : Char) (df : String)
    (has : String → Bool) (get : String → asset_types → vec_asset_t × Bool) :
    (∀ json : Json, json.lookup? "libraries" = none →
        reconcile_libraries_with_targets sep df json has get
          = Except.ok (asset_array.const []))
    ∧ (∀ (json : Json) (members : List (String × Json)),
        json.lookup? "libraries" = some (Json.obj members) →
        (∀ m ∈ members, has m.1 = true →
            (∃ bv, m.2.lookup? "serviceable" = some (Json.bool bv))
            ∧ (∃ ts, m.2.lookup? "type" = some (Json.str ts))) →
        ∃ out, reconcile_libraries_with_targets sep df json has get = Except.ok out) := by
  constructor
  · intro json hnone
    simp [reconcile_libraries_with_targets, hnone]
  · intro json members hobj hmeta
    simp only [reconcile_libraries_with_targets, hobj]
    apply foldlM_except_ok_total
    intro s m hm
    by_cases hh : has m.1 = true
    · obtain ⟨hser, htyp⟩ := hmeta m hm hh
      obtain ⟨one, hone⟩ := reconcile_one_library_ok sep (get_filename df) get m.1 m.2 hser htyp
      exact ⟨deps_entries_append s one, by simp [hh, hone, Except.map]⟩
    · simp only [Bool.not_eq_true] at hh
      exact ⟨s, by simp [hh]⟩

/-- Witness for `reconcile_ok_with_wellformed_metadata`: a concrete
one-library manifest with both metadata fields present reconciles without
error. -/
theorem reconcile_ok_with_wellformed_metadata_witness :
    ∃ out, reconcile_libraries_with_targets '/' "a.deps.json"
        (Json.obj [("libraries", Json.obj [("A/1",
          Json.obj [("serviceable", Json.bool true), ("type", Json.str "Package")])])])
        (fun _ => true) (fun _ _ => ([asset_a], false))
      = Except.ok out := by
  refine (reconcile_ok_with_wellformed_metadata '/' "a.deps.json"
      (fun _ => true) (fun _ _ => ([asset_a], false))).2 _
      [("A/1", Json.obj [("serviceable", Json.bool true), ("type", Json.str "Package")])]
      rfl ?_
  intro m hm _
  simp only [List.mem_singleton] at hm
  subst hm
  exact ⟨⟨true, rfl⟩, ⟨"Package", rfl⟩⟩

theorem assocUpdate_forall {α : Type} (Q : α → Prop) (m : List (String × α)) (k : String)
    (d : α) (f : α → α) (hm : ∀ p ∈ m, Q p.2) (hd : Q (f d)) (hf : ∀ v, Q v → Q (f v)) :
    ∀ p ∈ assocUpdate m k d f, Q p.2 := by
  induction m with
  | nil =>
    intro p hp
    simp only [assocUpdate, List.mem_singleton] at hp
    rw [hp]
    exact hd
  | cons q rest ih =>
    intro p hp
    simp only [assocUpdate] at hp
    by_cases h : (q.1 == k) = true
    · rw [if_pos h] at hp
      rcases List.mem_cons.mp hp with h1 | h1
      · rw [h1]
        exact hf q.2 (hm q (by simp))
      · exact hm p (List.mem_cons_of_mem _ h1)
    · rw [if_neg h] at hp
      rcases List.mem_cons.mp hp with h1 | h1
      · rw [h1]
        exact hm q (by simp)
      · exact ih (fun r hr => hm r (List.mem_cons_of_mem _ hr)) p h1

theorem asset_array_get_const {α : Type} (x : α) (t : asset_types) :
    asset_array.get (asset_array.const x) t = x := by
  cases t <;> rfl

theorem rid_map_push_names (m : rid_map) (rid : String) (asset : deps_asset_t)
    (hm : ∀ q ∈ m, ∀ a ∈ q.2, a.name = get_filename_without_ext a.relative_path)
    (ha : asset.name = get_filename_without_ext asset.relative_path) :
    ∀ q ∈ assocUpdate m rid [] (fun v => v ++ [asset]), ∀ a ∈ q.2,
      a.name = get_filename_without_ext a.relative_path := by
  refine assocUpdate_forall
    (fun v => ∀ a ∈ v, a.name = get_filename_without_ext a.relative_path)
    m rid [] _ hm ?_ ?_
  · intro a hmem
    simp only [List.nil_append, List.mem_singleton] at hmem
    rw [hmem]
    exact ha
  · intro v hv a hmem
    rcases List.mem_append.mp hmem with h | h
    · exact hv a h
    · simp only [List.mem_singleton] at h
      rw [h]
      exact ha

theorem runtime_target_file_add_names (pk fk : String) (fv : Json) (libs : rid_specific_libs)
    (h : ∀ p ∈ libs, ∀ t : asset_types, ∀ q ∈ asset_array.get p.2 t, ∀ a ∈ q.2,
        a.name = get_filename_without_ext a.relative_path) :
    ∀ p ∈ runtime_target_file_add pk fk fv libs, ∀ t : asset_types,
      ∀ q ∈ asset_array.get p.2 t, ∀ a ∈ q.2,
        a.name = get_filename_without_ext a.relative_path := by
  unfold runtime_target_file_add
  cases fv with
  | obj members =>
    cases h1 : Json.lookup? (Json.obj members) "assetType" >>= Json.asString? with
    | none => simpa only [h1] using h
    | some type_str =>
      simp only [h1]
      cases h2 : asset_types.all.find? (fun t => str_to_lower type_str == str_to_lower t.typeName) with
      | none => simpa only [h2] using h
      | some t' =>
        simp only [h2]
        cases h3 : Json.lookup? (Json.obj members) "rid" >>= Json.asString? with
        | none => simpa only [h3] using h
        | some rid =>
          simp only [h3]
          refine assocUpdate_forall
            (fun arr => ∀ t : asset_types, ∀ q ∈ asset_array.get arr t, ∀ a ∈ q.2,
              a.name = get_filename_without_ext a.relative_path)
            libs pk _ _ h ?_ ?_
          · intro t q hq a ha2
            rw [asset_array_get_modify] at hq
            by_cases ht : t = t'
            · rw [if_pos ht, asset_array_get_const] at hq
              exact rid_map_push_names [] rid _
                (fun q hq => absurd hq (List.not_mem_nil q)) rfl q hq a ha2
            · rw [if_neg ht, asset_array_get_const] at hq
              exact absurd hq (List.not_mem_nil q)
          · intro arr harr t q hq a ha2
            rw [asset_array_get_modify] at hq
            by_cases ht : t = t'
            · rw [if_pos ht] at hq
              exact rid_map_push_names (asset_array.get arr t') rid _ (harr t') rfl q hq a ha2
            · rw [if_neg ht] at hq
              exact harr t q hq a ha2
  | null => exact h
  | bool b => exact h
  | num n => exact h
  | str s => exact h
  | arr es => exact h

theorem files_fold_names (pk : String) (files : List (String × Json)) :
    ∀ libs : rid_specific_libs,
    (∀ p ∈ libs, ∀ t : asset_types, ∀ q ∈ asset_array.get p.2 t, ∀ a ∈ q.2,
        a.name = get_filename_without_ext a.relative_path) →
    ∀ p ∈ files.foldl (fun l file => runtime_target_file_add pk file.1 file.2 l) libs,
      ∀ t : asset_types, ∀ q ∈ asset_array.get p.2 t, ∀ a ∈ q.2,
        a.name = get_filename_without_ext a.relative_path := by
  induction files with
  | nil => intro libs h; exact h
  | cons f rest ih =>
    intro libs h
    rw [List.foldl_cons]
    exact ih _ (runtime_target_file_add_names pk f.1 f.2 libs h)

theorem runtime_targets_extract_names (doc : Json) (target : String)
    (out : rid_specific_libs) (hout : runtime_targets_extract doc target = Except.ok out) :
    ∀ p ∈ out, ∀ t : asset_types, ∀ q ∈ asset_array.get p.2 t, ∀ a ∈ q.2,
      a.name = get_filename_without_ext a.relative_path := by
  have hnil : ∀ (h : ([] : rid_specific_libs) = out), ∀ p ∈ out, ∀ t : asset_types,
      ∀ q ∈ asset_array.get p.2 t, ∀ a ∈ q.2,
      a.name = get_filename_without_ext a.relative_path := by
    intro h p hp
    rw [← h] at hp
    exact absurd hp (List.not_mem_nil p)
  unfold runtime_targets_extract at hout
  cases h1 : doc.lookup? "targets" with
  | none =>
    simp only [h1] at hout
    injection hout with hout
    exact hnil hout
  | some v =>
    cases v with
    | obj targets =>
      cases h2 : assocLookup targets target with
      | none =>
        simp only [h1, h2] at hout
        injection hout with hout
        exact hnil hout
      | some v2 =>
        cases v2 with
        | obj target_packages =>
          simp only [h1, h2] at hout
          by_cases hemp : target_packages.isEmpty = true
          · rw [if_pos hemp] at hout
            injection hout with hout
            exact hnil hout
          · rw [if_neg hemp] at hout
            refine foldlM_except_ok_preserve
              (fun libs => ∀ p ∈ libs, ∀ t : asset_types, ∀ q ∈ asset_array.get p.2 t,
                ∀ a ∈ q.2, a.name = get_filename_without_ext a.relative_path)
              _ target_packages []
              (fun p hp => absurd hp (List.not_mem_nil p)) ?_ out hout
            intro s pkg s' _ hs hstep
            cases hpkg : pkg.2 with
            | obj pm =>
              simp only [hpkg] at hstep
              cases h4 : Json.lookup? (Json.obj pm) "runtimeTargets" with
              | none =>
                simp only [h4] at hstep
                injection hstep with hstep
                rw [← hstep]
                exact hs
              | some rt =>
                simp only [h4] at hstep
                by_cases hpe : pm.isEmpty = true
                · rw [if_pos hpe] at hstep
                  injection hstep with hstep
                  rw [← hstep]
                  exact hs
                · rw [if_neg hpe] at hstep
                  cases rt with
                  | obj runtime_targets =>
                    injection hstep with hstep
                    rw [← hstep]
                    exact files_fold_names pkg.1 runtime_targets s hs
                  | null => exact Except.noConfusion hstep
                  | bool b => exact Except.noConfusion hstep
                  | num n => exact Except.noConfusion hstep
                  | str s2 => exact Except.noConfusion hstep
                  | arr es => exact Except.noConfusion hstep
            | null =>
              simp only [hpkg] at hstep
              injection hstep with hstep
              rw [← hstep]; exact hs
            | bool b =>
              simp only [hpkg] at hstep
              injection hstep with hstep
              rw [← hstep]; exact hs
            | num n =>
              simp only [hpkg] at hstep
              injection hstep with hstep
              rw [← hstep]; exact hs
            | str s2 =>
              simp only [hpkg] at hstep
              injection hstep with hstep
              rw [← hstep]; exact hs
            | arr es =>
              simp only [hpkg] at hstep
              injection hstep with hstep
              rw [← hstep]; exact hs
        | null => simp only [h1, h2] at hout; injection hout with hout; exact hnil hout
        | bool b => simp only [h1, h2] at hout; injection hout with hout; exact hnil hout
        | num n => simp only [h1, h2] at hout; injection hout with hout; exact hnil hout
        | str s2 => simp only [h1, h2] at hout; injection hout with hout; exact hnil hout
        | arr es => simp only [h1, h2] at hout; injection hout with hout; exact hnil hout
    | null => simp only [h1] at hout; injection hout with hout; exact hnil hout
    | bool b => simp only [h1] at hout; injection hout with hout; exact hnil hout
    | num n => simp only [h1] at hout; injection hout with hout; exact hnil hout
    | str s2 => simp only [h1] at hout; injection hout with hout; exact hnil hout
    | arr es => simp only [h1] at hout; injection hout with hout; exact hnil hout

/-- Claim C7 counterexample: RID-specific extraction does NOT strip the
native-image marker — the logical name extracted for the file
"lib/My.ni.dll" is "My.ni" (the filename without extension), not "My". -/
theorem extraction_keeps_ni_suffix :
    runtime_targets_extract ni_example_doc "T"
      = Except.ok [("P/1",
          ⟨[("win", [⟨"My.ni", "lib/My.ni.dll", version_t.zero, version_t.zero⟩])], [], []⟩)]
    ∧ ("My.ni" : String) ≠ "My" :=
  ⟨rfl, by decide⟩

/-- Claim C7 (corrected): the logical name a RID-specific asset gets at
extraction is exactly the filename without extension — a ".ni" segment is
retained, not stripped; stripping happens in reconciliation, which removes
a trailing ".ni" from the asset names of EVERY category (runtime included),
so each final entry's logical name is the extracted name with the marker
stripped — shown concretely by the final conjunct, where the "My.ni" asset
yields a reconciled runtime entry named "My". -/
theorem ni_normalization_at_reconcile :
    (∀ (doc : Json) (target : String) (out : rid_specific_libs),
        runtime_targets_extract doc target = Except.ok out →
        ∀ p ∈ out, ∀ t : asset_types, ∀ q ∈ asset_array.get p.2 t, ∀ a ∈ q.2,
          a.name = get_filename_without_ext a.relative_path)
    ∧ (∀ (sep : Char) (df : String) (get : String → asset_types → vec_asset_t × Bool)
        (lib : String) (value : Json) (out : asset_array (List deps_entry_t))
        (t : asset_types) (e : deps_entry_t),
        reconcile_one_library sep df get lib value = Except.ok out →
        e ∈ asset_array.get out t →
        ∃ a ∈ (get lib t).1, e.asset.name = ni_strip_asset_name a.name
          ∧ e.asset.relative_path = a.relative_path)
    ∧ ni_strip_asset_name "My.ni" = "My"
    ∧ (∃ out, reconcile_one_library '/' "d"
          (fun _ _ => ([⟨"My.ni", "lib/My.ni.dll", version_t.zero, version_t.zero⟩], true))
          "P/1" (Json.obj [("serviceable", Json.bool true), ("type", Json.str "package")])
          = Except.ok out
        ∧ ∀ e ∈ asset_array.get out .runtime, e.asset.name = "My") := by
  refine ⟨?_, ?_, by decide, ⟨_, rfl, by decide⟩⟩
  · exact runtime_targets_extract_names
  · intro sep df get lib value out t e hok he
    unfold reconcile_one_library at hok
    cases h1 : value.lookup? "serviceable" >>= Json.asBool? with
    | none =>
      rw [h1] at hok
      exact Except.noConfusion hok
    | some serviceable =>
      rw [h1] at hok
      cases h2 : value.lookup? "type" >>= Json.asString? with
      | none =>
        rw [h2] at hok
        exact Except.noConfusion hok
      | some type_str =>
        rw [h2] at hok
        injection hok with hok
        subst hok
        cases t <;>
        · simp only [asset_array.get, mk_reconciled_entries, List.mem_map] at he
          obtain ⟨a, hmem, hEq⟩ := he
          exact ⟨a, hmem, by rw [← hEq], by rw [← hEq]⟩

/-- Witness for `ni_normalization_at_reconcile`: the extraction conjunct at
the concrete fixture manifest. -/
theorem ni_normalization_at_reconcile_witness :
    ("My.ni" : String) = get_filename_without_ext "lib/My.ni.dll" := by
  exact ni_normalization_at_reconcile.1 ni_example_doc "T"
    [("P/1", ⟨[("win", [⟨"My.ni", "lib/My.ni.dll", version_t.zero, version_t.zero⟩])], [], []⟩)]
    rfl
    ("P/1", ⟨[("win", [⟨"My.ni", "lib/My.ni.dll", version_t.zero, version_t.zero⟩])], [], []⟩)
    (by decide) .runtime
    ("win", [⟨"My.ni", "lib/My.ni.dll", version_t.zero, version_t.zero⟩])
    (by decide) ⟨"My.ni", "lib/My.ni.dll", version_t.zero, version_t.zero⟩ (by decide)

end DepsFormat
